import Mathlib

/-!
Shallow embedding of the core of the xivanalysis repository:

* `src/parser/core/modules/Entities.js` — the entity/buff tracker and the
  uptime/interval reducer (`getStatusUptime`, `applyBuff`, `updateBuffStack`,
  `removeBuff`).
* the Requiescat window classifier (PLD `Requiescat` module).

Timestamps and ids are modelled as `Int` (JS numbers are used only at integral
values in this code).  JS `null` is modelled as `Option.none`; the JS coercion
of `null` to `0` in numeric comparisons is made explicit by `jsEnd`, and the
JS `||` fallback (which also treats `0` as falsy) by `jsOrElse`.
-/

namespace XIV

/-- JS numeric coercion of a possibly-`null` value: `null` compares as `0`. -/
def jsEnd : Option Int → Int
  | none => 0
  | some x => x

/-- JS `a || b` for a possibly-`null` number `a`: both `null` and `0` are
falsy and fall through to `b`.  Used for `range.end || currentTimestamp`. -/
def jsOrElse (a : Option Int) (b : Int) : Int :=
  match a with
  | none => b
  | some x => if x = 0 then b else x

/-- JS `a || 1` for a possibly-`undefined` stack count (`buff.stacks || 1`). -/
def jsOr1 : Option Int → Int
  | none => 1
  | some x => if x = 0 then 1 else x

/-- A tracked buff record, as built by the tracker in `Entities.js`:
`{...event, start, end, stacks, stackHistory, isDebuff}`.  `stackHistory`
entries are `(stacks, timestamp)` pairs.  `stacks` is `none` when the field
was never assigned (the synthesized-buff path of `removeBuff`). -/
structure Buff where
  abilityGuid : Int
  sourceID : Option Int
  start : Int
  endTime : Option Int
  stacks_ : Option Int
  stackHistory : List (Int × Int)
  isDebuff : Bool
deriving DecidableEq, Repr

/-- An invulnerability interval as served by the `invuln` collaborator
(`getInvulns`): `{start, end, type}`. -/
structure Invuln where
  type_ : String
  start : Int
  endTime : Int
deriving DecidableEq, Repr

/-- An entity with its buff list and its (read-only) invulnerability data. -/
structure Entity where
  id : Int
  buffs : List Buff
  invulns : List Invuln
deriving DecidableEq, Repr

/-- The tracker's accumulated state: the entity collection. -/
structure EState where
  entities : List Entity
deriving DecidableEq, Repr

/-! ## The uptime/interval reducer (`getStatusUptime`)

The JS code initialises `ranges = [buff]` — the **buff object itself** is the
first range, so in-place chops of a range's `start`/`end` mutate the stored
buff record.  The embedding therefore threads, alongside the range list, the
buff object's current `(start, end)` fields (`bp`), updated exactly when the
aliased range is chopped, and frozen once a `splice` replaces it with fresh
objects. -/

/-- A transient range during invulnerability subtraction.  `isBuffObj` marks
the range that is the original buff object (aliasing). -/
structure FRange where
  start : Int
  endTime : Option Int
  isBuffObj : Bool
deriving DecidableEq, Repr

/-- One pass of the inner `for (let i = 0; ...)` loop of `getStatusUptime`
for a single invuln, with JS `splice` semantics: a split consumes the current
range, emits its first half, and continues iteration at the second half.
`bp` is the buff object's `(start, end)` pair, mutated in sync with the
aliased range.  The loop does not terminate structurally (a malformed invuln
with `start > end` makes the JS loop spin forever), so a fuel parameter
bounds it; well-formed inputs never exhaust the fuel provided by callers. -/
def invulnPass (iv : Invuln) : Nat → List FRange → Int × Option Int →
    List FRange × (Int × Option Int)
  | 0, rs, bp => (rs, bp)
  | _ + 1, [], bp => ([], bp)
  | fuel + 1, r :: rest, bp =>
    if iv.start < r.start ∧ iv.endTime > r.start then
      -- invuln chops start of range
      let bp' := if r.isBuffObj then (iv.endTime, bp.2) else bp
      let (rs', bp'') := invulnPass iv fuel rest bp'
      ({r with start := iv.endTime} :: rs', bp'')
    else if iv.start < jsEnd r.endTime ∧ iv.endTime > jsEnd r.endTime then
      -- invuln chops end of range
      let bp' := if r.isBuffObj then (bp.1, some iv.start) else bp
      let (rs', bp'') := invulnPass iv fuel rest bp'
      ({r with endTime := some iv.start} :: rs', bp'')
    else if iv.start > r.start ∧ iv.endTime < jsEnd r.endTime then
      -- invuln splits the range (splice: two fresh objects replace it)
      let (rs', bp') :=
        invulnPass iv fuel (⟨iv.endTime, r.endTime, false⟩ :: rest) bp
      (⟨r.start, some iv.start, false⟩ :: rs', bp')
    else
      let (rs', bp') := invulnPass iv fuel rest bp
      (r :: rs', bp')

/-- The `invulns.forEach` loop: each invuln is first checked against the
**buff object's current fields** (`bp`) — `invuln.end < buff.start ||
invuln.start > buff.end` discards it — and otherwise applied to the range
list. -/
def subtractLoop : List Invuln → List FRange → Int × Option Int →
    List FRange × (Int × Option Int)
  | [], rs, bp => (rs, bp)
  | iv :: rest, rs, bp =>
    if iv.endTime < bp.1 ∨ iv.start > jsEnd bp.2 then
      subtractLoop rest rs bp
    else
      let (rs', bp') := invulnPass iv (2 * rs.length + 2) rs bp
      subtractLoop rest rs' bp'

/-- Invulnerability subtraction for one buff: `ranges = [buff]` seeded with
the buff object itself. -/
def subtractBuff (invs : List Invuln) (b : Buff) :
    List FRange × (Int × Option Int) :=
  subtractLoop invs [⟨b.start, b.endTime, true⟩] (b.start, b.endTime)

/-- Synthetic sweep events. -/
inductive SEvType
  | apply
  | remove
deriving DecidableEq, Repr

/-- A synthetic apply/remove event fed to the sweep-line reduction. -/
structure SEv where
  timestamp : Int
  type_ : SEvType
deriving DecidableEq, Repr

/-- Faked apply/remove events for the surviving ranges of one buff:
`{timestamp: range.start, APPLY}` and
`{timestamp: range.end || currentTimestamp, REMOVE}`. -/
def buffEvents (curTs : Int) : List FRange → List SEv
  | [] => []
  | r :: rs => ⟨r.start, .apply⟩ :: ⟨jsOrElse r.endTime curTs, .remove⟩ ::
      buffEvents curTs rs

/-- The buff filter of `getStatusUptime`: skip unless the ability id matches
and the source is the queried one or `null` (wildcard). -/
def keepBuff (statusId srcId : Int) (b : Buff) : Bool :=
  b.abilityGuid == statusId && (b.sourceID == some srcId || b.sourceID == none)

/-- Per-entity pass over the buff list: collects the synthetic events of the
matching buffs and rebuilds the buff list with the mutations the aliased
ranges inflicted on matching buffs. -/
def processBuffs (invs : List Invuln) (statusId srcId curTs : Int) :
    List Buff → List SEv × List Buff
  | [] => ([], [])
  | b :: bs =>
    let (evs, bs') := processBuffs invs statusId srcId curTs bs
    if keepBuff statusId srcId b then
      let (rs, bp) := subtractBuff invs b
      (buffEvents curTs rs ++ evs, {b with start := bp.1, endTime := bp.2} :: bs')
    else
      (evs, b :: bs')

/-- One entity's contribution: its invulns filtered to
`type === 'invulnerable'`, then the buff pass. -/
def entityPass (statusId srcId curTs : Int) (ent : Entity) :
    List SEv × Entity :=
  let invs := ent.invulns.filter (fun iv => iv.type_ == "invulnerable")
  let (evs, bs') := processBuffs invs statusId srcId curTs ent.buffs
  (evs, {ent with buffs := bs'})

/-- All entities, in order. -/
def statePass (statusId srcId curTs : Int) :
    List Entity → List SEv × List Entity
  | [] => ([], [])
  | e :: es =>
    let (evs, e') := entityPass statusId srcId curTs e
    let (evs2, es') := statePass statusId srcId curTs es
    (evs ++ evs2, e' :: es')

/-- Stable insertion of an event into a timestamp-sorted list: the new event
goes after every event with a timestamp `≤` its own. -/
def insertEv (e : SEv) : List SEv → List SEv
  | [] => [e]
  | x :: xs => if x.timestamp ≤ e.timestamp then x :: insertEv e xs
      else e :: x :: xs

/-- `events.sort((a, b) => a.timestamp - b.timestamp)` — JS `Array.sort` is a
stable sort by timestamp, modelled as stable insertion sort. -/
def sortEvents (l : List SEv) : List SEv :=
  l.foldl (fun acc e => insertEv e acc) []

/-- The sweep-line `reduce`: `active` counter, `start` initialised to `null`
(coerced to `0` on subtraction, per JS). -/
def sweepGo : Int → Int → Option Int → List SEv → Int
  | uptime, _, _, [] => uptime
  | uptime, active, start, ev :: rest =>
    match ev.type_ with
    | .apply =>
      sweepGo uptime (active + 1)
        (if active = 0 then some ev.timestamp else start) rest
    | .remove =>
      sweepGo
        (if active - 1 = 0 then uptime + (ev.timestamp - jsEnd start)
         else uptime)
        (active - 1) start rest

/-- Total uptime of a synthetic event list. -/
def sweep (l : List SEv) : Int := sweepGo 0 0 none l

/-- `getStatusUptime(statusId, sourceId)` with the state mutations it
inflicts made explicit: returns the uptime together with the updated state
(`ranges = [buff]` aliases the stored buff, so invuln chops write through to
it). `curTs` is `this.parser.currentTimestamp`. -/
def getStatusUptimeM (s : EState) (statusId srcId curTs : Int) :
    Int × EState :=
  let (evs, ents') := statePass statusId srcId curTs s.entities
  (sweep (sortEvents evs), ⟨ents'⟩)

/-- The value returned by `getStatusUptime`. -/
def getStatusUptime (s : EState) (statusId srcId curTs : Int) : Int :=
  (getStatusUptimeM s statusId srcId curTs).1

/-! ## The entity/buff tracker (event handlers of `Entities.js`) -/

/-- The event kinds dispatched by the `on_*` handlers. -/
inductive BEvKind
  | applybuff
  | applydebuff
  | applybuffstack
  | applydebuffstack
  | removebuffstack
  | removedebuffstack
  | removebuff
  | removedebuff
deriving DecidableEq, Repr

/-- An input buff event: `{type, timestamp, ability: {guid}, sourceID,
stack}`. -/
structure BEv where
  kind : BEvKind
  timestamp : Int
  abilityGuid : Int
  sourceID : Option Int
  stack : Int
deriving DecidableEq, Repr

/-- A synthetic `changebuffstack`/`changedebuffstack` event fabricated by
`triggerChangeBuffStack`.  `oldStacks` is `none` when the JS value is
`undefined` (`buff.stacks` of a buff synthesized by `removeBuff`). -/
structure FabEv where
  timestamp : Int
  oldStacks : Option Int
  newStacks : Int
  isDebuff : Bool
deriving DecidableEq, Repr

/-- The abstract collaborators the tracker is parameterized over:
`parser.byPlayer`/`parser.toPlayer` (collapsed into `relevant`), the
abstract `getEntity` resolution strategy (as an entity id), and
`parser.fight.start_time`. -/
structure TConfig where
  relevant : BEv → Bool
  getEntityId : BEv → Option Int
  fightStart : Int

/-- `getBuffEventEntity`: `null` unless the event is by or to the parsed
player, then the abstract entity resolution. -/
def resolveEntity (cfg : TConfig) (ev : BEv) : Option Int :=
  if cfg.relevant ev then cfg.getEntityId ev else none

/-- The open-buff search used by `updateBuffStack` and `removeBuff`:
`buffs.find(buff => buff.ability.guid === guid && buff.end === null)`. -/
def findOpen (g : Int) (bs : List Buff) : Option Buff :=
  bs.find? (fun b => b.abilityGuid == g && b.endTime == none)

/-- In-place mutation of the first open buff matching the guid (JS `find`
returns the object, which is then mutated). -/
def updateFirstOpen (g : Int) (f : Buff → Buff) : List Buff → List Buff
  | [] => []
  | b :: bs =>
    if b.abilityGuid == g && b.endTime == none then f b :: bs
    else b :: updateFirstOpen g f bs

/-- `applyBuff`: appends a fresh open buff (`stacks = 1`,
`stackHistory = [{stacks: 1, timestamp}]`) and fires a `(0, 1)` stack-change
event.  (Entity resolution is handled by the dispatcher.) -/
def applyBuffOp (ev : BEv) (isDebuff : Bool) (ent : Entity) :
    Entity × List FabEv :=
  let buff : Buff :=
    { abilityGuid := ev.abilityGuid
      sourceID := ev.sourceID
      start := ev.timestamp
      endTime := none
      stacks_ := some 1
      stackHistory := [(1, ev.timestamp)]
      isDebuff := isDebuff }
  ({ent with buffs := ent.buffs ++ [buff]},
   [⟨ev.timestamp, some 0, 1, isDebuff⟩])

/-- `updateBuffStack`: finds the open buff; when none exists the update is
dropped (a console warning only — no state change, no fabricated event).
Otherwise sets `stacks`, appends to `stackHistory`, and fires a stack-change
event with `oldStacks = buff.stacks || 1`. -/
def updateBuffStackOp (ev : BEv) (ent : Entity) : Entity × List FabEv :=
  match findOpen ev.abilityGuid ent.buffs with
  | none => (ent, [])
  | some b =>
    let buffs' := updateFirstOpen ev.abilityGuid
      (fun b0 => {b0 with
        stacks_ := some ev.stack
        stackHistory := b0.stackHistory ++ [(ev.stack, ev.timestamp)]})
      ent.buffs
    ({ent with buffs := buffs'},
     [⟨ev.timestamp, some (jsOr1 b.stacks_), ev.stack, b.isDebuff⟩])

/-- `removeBuff`: closes the open buff; when none exists a buff is first
synthesized with `start = fight.start_time` and
`stackHistory = [{stacks: 1, timestamp: startTime}]` (its `stacks` field is
never assigned), then closed: `end = timestamp`, a terminal `(stacks, 0)`
history entry, and a final stack-change event with `oldStacks =
buff.stacks`. -/
def removeBuffOp (fightStart : Int) (ev : BEv) (isDebuff : Bool)
    (ent : Entity) : Entity × List FabEv :=
  match findOpen ev.abilityGuid ent.buffs with
  | some b =>
    let buffs' := updateFirstOpen ev.abilityGuid
      (fun b0 => {b0 with
        endTime := some ev.timestamp
        stackHistory := b0.stackHistory ++ [(0, ev.timestamp)]})
      ent.buffs
    ({ent with buffs := buffs'}, [⟨ev.timestamp, b.stacks_, 0, b.isDebuff⟩])
  | none =>
    let buff : Buff :=
      { abilityGuid := ev.abilityGuid
        sourceID := ev.sourceID
        start := fightStart
        endTime := some ev.timestamp
        stacks_ := none
        stackHistory := [(1, fightStart), (0, ev.timestamp)]
        isDebuff := isDebuff }
    ({ent with buffs := ent.buffs ++ [buff]},
     [⟨ev.timestamp, none, 0, isDebuff⟩])

/-- Replace the first entity with the given id (JS mutates the object
returned by the abstract `getEntity`). -/
def replaceEntityFirst (eid : Int) (e' : Entity) : List Entity → List Entity
  | [] => []
  | x :: xs =>
    if x.id == eid then e' :: xs else x :: replaceEntityFirst eid e' xs

/-- Dispatch one buff event through the `on_*` handlers.  Events whose
entity does not resolve are silently ignored. -/
def processEvent (cfg : TConfig) (s : EState) (ev : BEv) :
    EState × List FabEv :=
  match resolveEntity cfg ev with
  | none => (s, [])
  | some eid =>
    match s.entities.find? (fun e => e.id == eid) with
    | none => (s, [])
    | some ent =>
      let (ent', fabs) :=
        match ev.kind with
        | .applybuff => applyBuffOp ev false ent
        | .applydebuff => applyBuffOp ev true ent
        | .applybuffstack => updateBuffStackOp ev ent
        | .applydebuffstack => updateBuffStackOp ev ent
        | .removebuffstack => updateBuffStackOp ev ent
        | .removedebuffstack => updateBuffStackOp ev ent
        | .removebuff => removeBuffOp cfg.fightStart ev false ent
        | .removedebuff => removeBuffOp cfg.fightStart ev true ent
      (⟨replaceEntityFirst eid ent' s.entities⟩, fabs)

/-- Number of open (`end == null`) buffs of a given ability on a buff
list. -/
def openCount (bs : List Buff) (g : Int) : Nat :=
  (bs.filter (fun b => b.abilityGuid == g && b.endTime == none)).length

/-- The at-most-one-open-buff-per-(entity, ability) invariant of the spec's
data model. -/
def OpenInvariant (s : EState) : Prop :=
  ∀ ent ∈ s.entities, ∀ g : Int, openCount ent.buffs g ≤ 1

/-! ## The Requiescat window classifier (PLD `Requiescat` module) -/

/-- A cast event (`CastEvent`): timestamp and `ability.guid`. -/
structure CastEv where
  timestamp : Int
  actionId : Int
deriving DecidableEq, Repr

/-- `RequiescatState`: `start` of the currently open window (or `null`) and
the qualifying-cast counter. -/
structure ReqState where
  start : Option Int
  holySpirits : Int
deriving DecidableEq, Repr

/-- `new RequiescatState()`. -/
def ReqState.initial : ReqState := ⟨none, 0⟩

/-- `RequiescatErrorResult`. -/
structure ReqErrorResult where
  missedHolySpirits : Int
  missedRequiescatBuffs : Int
deriving DecidableEq, Repr

/-- The module's mutable state: the window state, the per-window rotation
map (keyed by open timestamp, in insertion order), and the error tallies. -/
structure ReqModule where
  requiescatState : ReqState
  requiescatRotations : List (Int × List CastEv)
  requiescatErrorResult : ReqErrorResult
deriving DecidableEq, Repr

/-- The relevant action ids (`ACTIONS.ATTACK.id`, `ACTIONS.REQUIESCAT.id`,
`ACTIONS.HOLY_SPIRIT.id`); opaque lookup data, passed as parameters. -/
structure ReqIds where
  attack : Int
  requiescat : Int
  holySpirit : Int
deriving DecidableEq, Repr

/-- `CONSTANTS.MP.TICK_AMOUNT`. -/
def MP_TICK_AMOUNT : Int := 141

/-- `CONSTANTS.HOLY_SPIRIT.EXPECTED`. -/
def HOLY_SPIRIT_EXPECTED : Int := 5

/-- The resource gate `(mp + CONSTANTS.MP.TICK_AMOUNT) / maxMP >=
CONSTANTS.REQUIESCAT.MP_THRESHOLD` with `MP_THRESHOLD = 0.8`, read in exact
arithmetic and cross-multiplied by the (positive) `maxMP`:
`5 * (mp + 141) >= 4 * maxMP`. -/
def mpGate (mp maxMP : Int) : Bool :=
  5 * (mp + MP_TICK_AMOUNT) ≥ 4 * maxMP

/-- `rotations[start].push(event)`, creating the array when absent. -/
def pushRotation (t : Int) (ev : CastEv) :
    List (Int × List CastEv) → List (Int × List CastEv)
  | [] => [(t, [ev])]
  | (k, l) :: rest =>
    if k == t then (k, l ++ [ev]) :: rest else (k, l) :: pushRotation t ev rest

/-- `onCast`: the default attack is excluded entirely; a Requiescat cast
either opens a window (gate passes: `start := timestamp`) or bumps
`missedRequiescatBuffs`; while a window is open every cast is appended to
its rotation and Holy Spirit casts bump the qualifying counter.  `mp` and
`maxMP` are the resource snapshot read from the combatants collaborator at
cast time. -/
def onCast (ids : ReqIds) (mp maxMP : Int) (ev : CastEv) (m : ReqModule) :
    ReqModule :=
  if ev.actionId == ids.attack then m
  else
    let m1 :=
      if ev.actionId == ids.requiescat then
        if mpGate mp maxMP then
          {m with requiescatState :=
            {m.requiescatState with start := some ev.timestamp}}
        else
          {m with requiescatErrorResult :=
            {m.requiescatErrorResult with missedRequiescatBuffs :=
              m.requiescatErrorResult.missedRequiescatBuffs + 1}}
      else m
    match m1.requiescatState.start with
    | none => m1
    | some t =>
      let m2 :=
        if ev.actionId == ids.holySpirit then
          {m1 with requiescatState :=
            {m1.requiescatState with holySpirits :=
              m1.requiescatState.holySpirits + 1}}
        else m1
      {m2 with requiescatRotations := pushRotation t ev m2.requiescatRotations}

/-- `onRemoveRequiescat`: adds the zero-clamped shortfall
`Math.max(0, EXPECTED - holySpirits)` to `missedHolySpirits` and resets the
window state. -/
def onRemoveRequiescat (m : ReqModule) : ReqModule :=
  {m with
    requiescatErrorResult :=
      {m.requiescatErrorResult with missedHolySpirits :=
        m.requiescatErrorResult.missedHolySpirits +
          (max 0 (HOLY_SPIRIT_EXPECTED - m.requiescatState.holySpirits))},
    requiescatState := ReqState.initial}

/-! ## Concrete fixtures used by the claim theorems -/

/-- A buff as `applyBuff` records it (`stacks = 1`, one history entry),
possibly closed at `e`. -/
def plainBuff (g : Int) (src : Option Int) (s : Int) (e : Option Int) :
    Buff :=
  ⟨g, src, s, e, some 1, [(1, s)], false⟩

/-- Two wildcard-source buffs `[0,0]` and `[0,5]` of status 1, no
invulns. -/
def c1CexState : EState :=
  ⟨[⟨0, [plainBuff 1 none 0 (some 0), plainBuff 1 none 0 (some 5)], []⟩]⟩

/-- One buff `[0,10]` of status 1 and an invulnerability interval exactly
covering it. -/
def c2State : EState :=
  ⟨[⟨0, [plainBuff 1 none 0 (some 10)], [⟨"invulnerable", 0, 10⟩]⟩]⟩

/-- A resolution strategy that maps every event to entity 0. -/
def c4CexCfg : TConfig := ⟨fun _ => true, fun _ => some 0, 0⟩

/-- A single entity with no buffs. -/
def c4CexS0 : EState := ⟨[⟨0, [], []⟩]⟩

/-- First application of ability 1. -/
def c4CexEv1 : BEv := ⟨.applybuff, 0, 1, some 7, 0⟩

/-- Second application of ability 1, with no removal in between. -/
def c4CexEv2 : BEv := ⟨.applybuff, 5, 1, some 7, 0⟩

/-- The entity state after the two applications: two open buffs of
ability 1. -/
def c4CexEnt : Entity :=
  ⟨0, [plainBuff 1 (some 7) 0 none, plainBuff 1 (some 7) 5 none], []⟩

/-- Tracker configuration with `fight.start_time = 100`. -/
def c5WCfg : TConfig := ⟨fun _ => true, fun _ => some 0, 100⟩

/-- A `removebuff` of ability 1 at `t = 500` with no prior application. -/
def c5WEv : BEv := ⟨.removebuff, 500, 1, some 7, 0⟩

/-- Tracker configuration for the stack-update witness. -/
def c6WCfg : TConfig := ⟨fun _ => true, fun _ => some 0, 0⟩

/-- A single entity holding only a closed buff of a different ability. -/
def c6WS : EState := ⟨[⟨0, [plainBuff 2 none 0 (some 3)], []⟩]⟩

/-- A `removebuffstack` for ability 1, which has no open buff. -/
def c6WEv : BEv := ⟨.removebuffstack, 10, 1, some 7, 2⟩

/-- Opaque action ids: attack 7, Requiescat 100, Holy Spirit 200. -/
def c7Ids : ReqIds := ⟨7, 100, 200⟩

/-- Classifier state with no open window and clean tallies. -/
def c7M : ReqModule := ⟨⟨none, 0⟩, [], ⟨0, 0⟩⟩

/-- Classifier state: window open since 0, 3 qualifying casts seen. -/
def c8M : ReqModule := ⟨⟨some 0, 3⟩, [], ⟨0, 0⟩⟩

/-- One buff `[0,10]` with an invulnerability interval `[5,15]` chopping its
end. -/
def c9CexState : EState :=
  ⟨[⟨0, [plainBuff 1 none 0 (some 10)], [⟨"invulnerable", 5, 15⟩]⟩]⟩

/-- One buff `[0,10]` with an invulnerability interval `[20,30]` entirely
after it. -/
def c9WState : EState :=
  ⟨[⟨0, [plainBuff 1 none 0 (some 10)], [⟨"invulnerable", 20, 30⟩]⟩]⟩

/-- Idle classifier state (no window, zero qualifying count), tally at 7. -/
def c10M : ReqModule := ⟨⟨none, 0⟩, [], ⟨7, 0⟩⟩

/-! ## Helper lemmas -/

/-- Inserting an event whose timestamp dominates a list appends it. -/
theorem insertEv_last (e : SEv) : ∀ l : List SEv,
    (∀ x ∈ l, x.timestamp ≤ e.timestamp) → insertEv e l = l ++ [e]
  | [], _ => rfl
  | x :: xs, h => by
    simp only [insertEv, if_pos (h x (List.mem_cons_self x xs)),
      insertEv_last e xs (fun y hy => h y (List.mem_cons_of_mem x hy))]
    rfl

/-- The sweep of two sorted apply/remove pairs with overlapping spans
computes the measure of the union interval. -/
theorem sweep_sort_two (s1 e1 s2 e2 : Int) (h1 : s1 ≤ e1) (h2 : s2 ≤ e2)
    (h3 : s2 ≤ e1) (h4 : s1 ≤ e2) :
    sweep (sortEvents [⟨s1, .apply⟩, ⟨e1, .remove⟩, ⟨s2, .apply⟩,
      ⟨e2, .remove⟩]) = max e1 e2 - min s1 s2 := by
  simp only [sortEvents, List.foldl]
  by_cases hA : s1 ≤ s2 <;> by_cases hB : e1 ≤ s2 <;> by_cases hC : e1 ≤ e2 <;>
    (simp [insertEv, sweep, sweepGo, jsEnd, h1, h2, h3, h4, hA, hB, hC];
      try omega)

/-- Replacing the entity returned by `find?` with itself is the identity. -/
theorem replaceEntityFirst_self (eid : Int) (e : Entity) :
    ∀ l : List Entity, l.find? (fun x => x.id == eid) = some e →
      replaceEntityFirst eid e l = l
  | [], hf => by simp at hf
  | x :: xs, hf => by
    by_cases hx : x.id == eid
    · simp only [List.find?_cons, hx] at hf
      simp only [replaceEntityFirst, hx, if_true]
      simp_all
    · simp only [List.find?_cons, hx] at hf
      simp [replaceEntityFirst, hx, replaceEntityFirst_self eid e xs hf]

/-- A run of non-matching buffs contributes no events and survives the
uptime pass untouched. -/
theorem processBuffs_unmatched (invs : List Invuln) (g srcId curTs : Int) :
    ∀ (l1 l2 : List Buff), (∀ b ∈ l1, keepBuff g srcId b = false) →
      processBuffs invs g srcId curTs (l1 ++ l2) =
        ((processBuffs invs g srcId curTs l2).1,
          l1 ++ (processBuffs invs g srcId curTs l2).2)
  | [], l2, _ => by simp [processBuffs]
  | b :: l1, l2, h => by
    have ih := processBuffs_unmatched invs g srcId curTs l1 l2
      (fun x hx => h x (List.mem_cons_of_mem b hx))
    simp only [List.cons_append, processBuffs, List.append_eq, ih,
      h b (List.mem_cons_self b l1), Bool.false_eq_true, if_false]

/-- When every invuln fails the overlap test against the buff fields, the
subtraction loop is the identity. -/
theorem subtractLoop_discard : ∀ (invs : List Invuln) (rs : List FRange)
    (bp : Int × Option Int),
    (∀ iv ∈ invs, iv.endTime < bp.1 ∨ iv.start > jsEnd bp.2) →
    subtractLoop invs rs bp = (rs, bp)
  | [], _, _, _ => rfl
  | iv :: rest, rs, bp, h => by
    simp only [subtractLoop, if_pos (h iv (List.mem_cons_self iv rest)),
      subtractLoop_discard rest rs bp
        (fun x hx => h x (List.mem_cons_of_mem iv hx))]

/-- The buff pass rebuilds the buff list unchanged when no invuln overlaps
any matching buff. -/
theorem processBuffs_readonly (invs : List Invuln) (g srcId curTs : Int) :
    ∀ bs : List Buff, (∀ b ∈ bs, keepBuff g srcId b = true →
      ∀ iv ∈ invs, iv.endTime < b.start ∨ iv.start > jsEnd b.endTime) →
    (processBuffs invs g srcId curTs bs).2 = bs
  | [], _ => rfl
  | b :: bs, h => by
    have ih := processBuffs_readonly invs g srcId curTs bs
      (fun x hx => h x (List.mem_cons_of_mem b hx))
    cases hk : keepBuff g srcId b with
    | false => simp [processBuffs, hk, ih]
    | true =>
      have hsub : subtractBuff invs b = ([⟨b.start, b.endTime, true⟩],
          (b.start, b.endTime)) :=
        subtractLoop_discard invs _ _ (h b (List.mem_cons_self b bs) hk)
      simp [processBuffs, hk, hsub, ih]

/-- The entity pass is the identity on states whose invulns never overlap a
matching buff. -/
theorem statePass_readonly (g srcId curTs : Int) :
    ∀ es : List Entity, (∀ ent ∈ es, ∀ b ∈ ent.buffs,
      keepBuff g srcId b = true → ∀ iv ∈ ent.invulns,
        iv.type_ = "invulnerable" →
        iv.endTime < b.start ∨ iv.start > jsEnd b.endTime) →
    (statePass g srcId curTs es).2 = es
  | [], _ => rfl
  | e :: es, h => by
    have ih := statePass_readonly g srcId curTs es
      (fun x hx => h x (List.mem_cons_of_mem e hx))
    have hent : (entityPass g srcId curTs e).2 = e := by
      have hb : (processBuffs (e.invulns.filter
          (fun iv => iv.type_ == "invulnerable")) g srcId curTs e.buffs).2 =
          e.buffs := by
        apply processBuffs_readonly
        intro b hb hkeep iv hiv
        have hmem := List.mem_filter.mp hiv
        exact h e (List.mem_cons_self e es) b hb hkeep iv hmem.1
          (by simpa using hmem.2)
      simp [entityPass, hb]
    simp [statePass, hent, ih]

/-- Members of a list after a first-match replacement are the replacement or
original members. -/
theorem mem_replaceEntityFirst (eid : Int) (e' : Entity) :
    ∀ (l : List Entity) (x : Entity), x ∈ replaceEntityFirst eid e' l →
      x = e' ∨ x ∈ l
  | [], x, hx => by simp [replaceEntityFirst] at hx
  | y :: ys, x, hx => by
    by_cases hy : y.id == eid
    · simp only [replaceEntityFirst, hy, if_true] at hx
      rcases List.mem_cons.mp hx with h | h
      · exact Or.inl h
      · exact Or.inr (List.mem_cons_of_mem y h)
    · simp only [replaceEntityFirst, hy, if_false] at hx
      rcases List.mem_cons.mp hx with h | h
      · exact Or.inr (h ▸ List.mem_cons_self y ys)
      · rcases mem_replaceEntityFirst eid e' ys x h with h2 | h2
        · exact Or.inl h2
        · exact Or.inr (List.mem_cons_of_mem y h2)

/-- Open-buff count of a cons. -/
theorem openCount_cons (b : Buff) (bs : List Buff) (g : Int) :
    openCount (b :: bs) g =
      (if b.abilityGuid == g && b.endTime == none then 1 else 0) +
        openCount bs g := by
  by_cases hb : b.abilityGuid == g && b.endTime == none <;>
    simp [openCount, List.filter_cons, hb] <;> omega

/-- Open-buff count after appending one buff. -/
theorem openCount_append_single (bs : List Buff) (b : Buff) (g : Int) :
    openCount (bs ++ [b]) g =
      openCount bs g +
        (if b.abilityGuid == g && b.endTime == none then 1 else 0) := by
  by_cases hb : b.abilityGuid == g && b.endTime == none <;>
    simp [openCount, List.filter_append, List.filter_cons, hb]

/-- A first-match update that changes neither ability id nor end leaves
every open count unchanged. -/
theorem openCount_updateFirstOpen_keep (g g' : Int) (f : Buff → Buff)
    (hf : ∀ b, (f b).abilityGuid = b.abilityGuid ∧
      (f b).endTime = b.endTime) :
    ∀ bs : List Buff, openCount (updateFirstOpen g f bs) g' = openCount bs g'
  | [] => rfl
  | b :: bs => by
    by_cases hb : b.abilityGuid == g && b.endTime == none
    · simp only [updateFirstOpen, hb, if_true, openCount_cons,
        (hf b).1, (hf b).2]
    · simp only [updateFirstOpen, hb, Bool.false_eq_true, if_false,
        openCount_cons, openCount_updateFirstOpen_keep g g' f hf bs]

/-- A first-match update that closes the buff never increases an open
count. -/
theorem openCount_updateFirstOpen_close (g g' : Int) (f : Buff → Buff)
    (hf : ∀ b, (f b).endTime ≠ none) :
    ∀ bs : List Buff, openCount (updateFirstOpen g f bs) g' ≤ openCount bs g'
  | [] => Nat.le_refl _
  | b :: bs => by
    by_cases hb : b.abilityGuid == g && b.endTime == none
    · simp only [updateFirstOpen, hb, if_true, openCount_cons]
      have hfb : ((f b).endTime == none) = false := by
        cases hfb : (f b).endTime with
        | none => exact absurd hfb (hf b)
        | some _ => rfl
      simp only [hfb, Bool.and_false, Bool.false_eq_true, if_false,
        Nat.zero_add]
      omega
    · simp only [updateFirstOpen, hb, Bool.false_eq_true, if_false,
        openCount_cons]
      have := openCount_updateFirstOpen_close g g' f hf bs
      omega

/-- `applyBuff` on an entity with no open buff of the event's ability keeps
every open count at most one. -/
theorem openCount_applyBuffOp (ev : BEv) (isD : Bool) (e : Entity) (g : Int)
    (h0 : openCount e.buffs ev.abilityGuid = 0)
    (h1 : openCount e.buffs g ≤ 1) :
    openCount (applyBuffOp ev isD e).1.buffs g ≤ 1 := by
  simp only [applyBuffOp, openCount_append_single]
  by_cases hg : ev.abilityGuid = g
  · subst hg
    simp only [beq_self_eq_true, Bool.and_self, if_true]
    omega
  · have : ((ev.abilityGuid == g : Bool) &&
        (none == (none : Option Int))) = false := by simp [hg]
    simp only [this, Bool.false_eq_true, if_false]
    omega

/-- `updateBuffStack` preserves every open count. -/
theorem openCount_updateBuffStackOp (ev : BEv) (e : Entity) (g : Int)
    (h1 : openCount e.buffs g ≤ 1) :
    openCount (updateBuffStackOp ev e).1.buffs g ≤ 1 := by
  cases hf : findOpen ev.abilityGuid e.buffs with
  | none => simpa [updateBuffStackOp, hf] using h1
  | some b =>
    simp only [updateBuffStackOp, hf]
    rw [openCount_updateFirstOpen_keep ev.abilityGuid g
      (fun b0 => {b0 with stacks_ := some ev.stack, stackHistory := b0.stackHistory ++ [(ev.stack, ev.timestamp)]})
      (fun b0 => ⟨rfl, rfl⟩) e.buffs]
    exact h1

/-- `removeBuff` never increases an open count: a found buff is closed, and
a synthesized buff is appended already closed. -/
theorem openCount_removeBuffOp (fs : Int) (ev : BEv) (isD : Bool)
    (e : Entity) (g : Int) (h1 : openCount e.buffs g ≤ 1) :
    openCount (removeBuffOp fs ev isD e).1.buffs g ≤ 1 := by
  cases hf : findOpen ev.abilityGuid e.buffs with
  | some b =>
    simp only [removeBuffOp, hf]
    exact Nat.le_trans
      (openCount_updateFirstOpen_close ev.abilityGuid g
        (fun b0 => {b0 with endTime := some ev.timestamp, stackHistory := b0.stackHistory ++ [(0, ev.timestamp)]})
        (fun b0 => by simp) e.buffs) h1
  | none =>
    simp [removeBuffOp, hf, openCount_append_single]
    omega

/-- The resource gate in exact arithmetic agrees with the spec's fractional
formulation for positive `maxMP`. -/
theorem mpGate_iff (mp maxMP : Int) (hmax : 0 < maxMP) :
    mpGate mp maxMP = true ↔
      (4 / 5 : ℚ) ≤ ((mp : ℚ) + 141) / (maxMP : ℚ) := by
  rw [div_le_div_iff₀ (by norm_num) (by exact_mod_cast hmax)]
  simp only [mpGate, MP_TICK_AMOUNT, ge_iff_le, decide_eq_true_eq]
  constructor
  · intro h
    have : (4 * maxMP : ℚ) ≤ ((mp + 141) * 5 : ℚ) := by
      exact_mod_cast (by omega : 4 * maxMP ≤ (mp + 141) * 5)
    push_cast at this ⊢
    linarith
  · intro h
    have h1 : (4 * maxMP : ℚ) ≤ ((mp : ℚ) + 141) * 5 := by linarith
    have h2 : 4 * maxMP ≤ (mp + 141) * 5 := by exact_mod_cast h1
    omega

/-! ## Claim theorems -/

/-- Claim C1, counterexample: as universally stated the union property
fails.  Wildcard buffs `[0,0]` and `[0,5]` of status 1 overlap (at `t = 0`)
and their union has duration 5, but `getStatusUptime` returns the current
timestamp (100) because `range.end || currentTimestamp` treats the end
timestamp `0` as falsy and fakes the remove event at query time. -/
theorem c1_overlap_union_cex :
    getStatusUptime c1CexState 1 999 100 = 100 ∧
    getStatusUptime c1CexState 1 999 100 ≠ 5 := by decide

/-- Claim C1 (amended): for every pair of wildcard-source buffs of the
queried status with overlapping closed intervals and no invulnerability
intervals, and whose end timestamps are not exactly 0 (where the JS `||`
fallback kicks in), `getStatusUptime` returns the duration of the union of
the two intervals — the sweep-line reduction never counts the overlapped
region twice. -/
theorem c1_overlap_union (g srcId curTs s1 e1 s2 e2 : Int) (h1 : s1 ≤ e1)
    (h2 : s2 ≤ e2) (h3 : s2 ≤ e1) (h4 : s1 ≤ e2) (he1 : e1 ≠ 0)
    (he2 : e2 ≠ 0) :
    getStatusUptime
      ⟨[⟨0, [⟨g, none, s1, some e1, some 1, [(1, s1)], false⟩,
             ⟨g, none, s2, some e2, some 1, [(1, s2)], false⟩], []⟩]⟩
      g srcId curTs = max e1 e2 - min s1 s2 := by
  simp only [getStatusUptime, getStatusUptimeM, statePass, entityPass,
    List.filter, processBuffs, keepBuff, subtractBuff, subtractLoop,
    buffEvents, jsOrElse, beq_self_eq_true, Bool.true_and, Bool.or_true,
    decide_True, if_true, List.append_nil, List.nil_append, List.cons_append]
  rw [if_neg he1, if_neg he2]
  exact sweep_sort_two s1 e1 s2 e2 h1 h2 h3 h4

/-- Claim C1 witness: buff A over `[0,10]` and buff B over `[5,15]` give a
total uptime of 15, not 20. -/
theorem c1_overlap_union_witness :
    getStatusUptime
      ⟨[⟨0, [plainBuff 1 none 0 (some 10), plainBuff 1 none 5 (some 15)],
         []⟩]⟩ 1 999 100 = 15 := by
  have h := c1_overlap_union 1 999 100 0 10 5 15 (by norm_num) (by norm_num)
    (by norm_num) (by norm_num) (by norm_num) (by norm_num)
  norm_num at h
  exact h

/-- Claim C2: the code violates the claim at the exactly-covering case.  A
buff `[0,10]` fully covered by the invulnerability interval `[0,10]`
(`invuln.start = buff.start`, `invuln.end = buff.end`) matches none of the
three strict-inequality subtraction branches, so the range survives intact
and the buff contributes its full duration 10 instead of the required 0. -/
theorem c2_exact_cover_full_duration :
    getStatusUptime c2State 1 999 100 = 10 ∧
    getStatusUptime c2State 1 999 100 ≠ 0 := by decide

/-- Claim C3: an invulnerability interval strictly inside a closed buff
interval (with nonnegative timestamps) splits it into exactly the two
ranges `[buff.start, invuln.start]` and `[invuln.end, buff.end]`, and the
uptime contributed is the buff duration minus the invuln duration. -/
theorem c3_strict_inside_split (g srcId curTs bs be is ie : Int)
    (hb0 : 0 ≤ bs) (h1 : bs < is) (h2 : is ≤ ie) (h3 : ie < be) :
    ((subtractBuff [⟨"invulnerable", is, ie⟩]
        ⟨g, none, bs, some be, some 1, [(1, bs)], false⟩).1.map
      (fun r => (r.start, r.endTime))) = [(bs, some is), (ie, some be)] ∧
    getStatusUptime
      ⟨[⟨0, [⟨g, none, bs, some be, some 1, [(1, bs)], false⟩],
         [⟨"invulnerable", is, ie⟩]⟩]⟩ g srcId curTs =
      (be - bs) - (ie - is) := by
  constructor
  · simp only [subtractBuff, subtractLoop, invulnPass, jsEnd, List.length]
    rw [if_neg (by simp [jsEnd]; omega)]
    simp only [invulnPass, jsEnd]
    rw [if_neg (by omega), if_neg (by omega), if_pos (by omega)]
    simp only [invulnPass, jsEnd]
    rw [if_neg (by omega), if_neg (by omega), if_neg (by omega)]
    simp only [invulnPass, List.map]
  · simp only [getStatusUptime, getStatusUptimeM, statePass, entityPass,
      List.filter, processBuffs, keepBuff, subtractBuff, subtractLoop,
      invulnPass, jsEnd, List.length, beq_self_eq_true, Bool.true_and,
      Bool.or_true, decide_True, if_true]
    rw [if_neg (by simp [jsEnd]; omega)]
    simp only [invulnPass, jsEnd]
    rw [if_neg (by omega), if_neg (by omega), if_pos (by omega)]
    simp only [invulnPass, jsEnd]
    rw [if_neg (by omega), if_neg (by omega), if_neg (by omega)]
    simp only [invulnPass, buffEvents, jsOrElse, List.append_nil,
      List.nil_append]
    rw [if_neg (by omega : ¬ is = 0), if_neg (by omega : ¬ be = 0)]
    simp only [sortEvents, List.foldl, insertEv]
    rw [if_pos (by omega : bs ≤ is)]
    rw [insertEv_last ⟨ie, .apply⟩ [⟨bs, .apply⟩, ⟨is, .remove⟩]
      (by intro x hx; fin_cases hx <;> simp <;> omega)]
    simp only [List.cons_append, List.nil_append]
    rw [insertEv_last ⟨be, .remove⟩ [⟨bs, .apply⟩, ⟨is, .remove⟩,
        ⟨ie, .apply⟩]
      (by intro x hx; fin_cases hx <;> simp <;> omega)]
    simp only [sweep, sweepGo, jsEnd, List.cons_append, List.nil_append]
    norm_num
    omega

/-- Claim C3 witness: a buff `[2,20]` split by the invuln `[5,10]` yields
the ranges `[2,5]` and `[10,20]` and uptime 13. -/
theorem c3_strict_inside_split_witness :
    ((subtractBuff [⟨"invulnerable", 5, 10⟩]
        ⟨1, none, 2, some 20, some 1, [(1, 2)], false⟩).1.map
      (fun r => (r.start, r.endTime))) = [(2, some 5), (10, some 20)] ∧
    getStatusUptime
      ⟨[⟨0, [⟨1, none, 2, some 20, some 1, [(1, 2)], false⟩],
         [⟨"invulnerable", 5, 10⟩]⟩]⟩ 1 999 100 = (20 - 2) - (10 - 5) :=
  c3_strict_inside_split 1 999 100 2 20 5 10 (by norm_num) (by norm_num)
    (by norm_num) (by norm_num)

/-- Claim C4, counterexample: `applyBuff` appends a fresh open buff without
checking for an existing one, so two `applybuff` events for ability 1 with
no removal in between leave the entity with two simultaneously open buffs
for the same (entity, abilityId) pair — the at-most-one-open invariant is
not enforced by the tracker. -/
theorem c4_one_open_cex :
    ¬ OpenInvariant
      (processEvent c4CexCfg (processEvent c4CexCfg c4CexS0 c4CexEv1).1
        c4CexEv2).1 := by
  intro h
  have h2 := h c4CexEnt (by decide) 1
  have h3 : openCount c4CexEnt.buffs 1 = 2 := by decide
  omega

/-- Claim C4 (amended): the at-most-one-open-buff invariant is preserved by
every tracker event provided the event stream itself never applies a buff
whose ability already has an open buff on the resolved entity (the log, not
the tracker, must rule that out); stack updates and removals always
preserve it. -/
theorem c4_one_open_guarded (cfg : TConfig) (s : EState) (ev : BEv)
    (hinv : OpenInvariant s)
    (hguard : (ev.kind = .applybuff ∨ ev.kind = .applydebuff) →
      ∀ ent ∈ s.entities, resolveEntity cfg ev = some ent.id →
        openCount ent.buffs ev.abilityGuid = 0) :
    OpenInvariant (processEvent cfg s ev).1 := by
  cases hres : resolveEntity cfg ev with
  | none => simpa [OpenInvariant, processEvent, hres] using hinv
  | some eid =>
    cases hf : s.entities.find? (fun e => e.id == eid) with
    | none => simpa [OpenInvariant, processEvent, hres, hf] using hinv
    | some e =>
      have hmem := List.mem_of_find?_eq_some hf
      have hid : e.id = eid := by simpa using List.find?_some hf
      intro ent hent g
      simp only [processEvent, hres, hf] at hent
      have h1 : openCount e.buffs g ≤ 1 := hinv e hmem g
      cases hk : ev.kind with
      | applybuff =>
        simp only [hk] at hent
        rcases mem_replaceEntityFirst eid _ _ _ hent with h | h
        · subst h
          exact openCount_applyBuffOp ev false e g
            (hguard (Or.inl hk) e hmem (by rw [hres, hid])) h1
        · exact hinv ent h g
      | applydebuff =>
        simp only [hk] at hent
        rcases mem_replaceEntityFirst eid _ _ _ hent with h | h
        · subst h
          exact openCount_applyBuffOp ev true e g
            (hguard (Or.inr hk) e hmem (by rw [hres, hid])) h1
        · exact hinv ent h g
      | applybuffstack =>
        simp only [hk] at hent
        rcases mem_replaceEntityFirst eid _ _ _ hent with h | h
        · subst h; exact openCount_updateBuffStackOp ev e g h1
        · exact hinv ent h g
      | applydebuffstack =>
        simp only [hk] at hent
        rcases mem_replaceEntityFirst eid _ _ _ hent with h | h
        · subst h; exact openCount_updateBuffStackOp ev e g h1
        · exact hinv ent h g
      | removebuffstack =>
        simp only [hk] at hent
        rcases mem_replaceEntityFirst eid _ _ _ hent with h | h
        · subst h; exact openCount_updateBuffStackOp ev e g h1
        · exact hinv ent h g
      | removedebuffstack =>
        simp only [hk] at hent
        rcases mem_replaceEntityFirst eid _ _ _ hent with h | h
        · subst h; exact openCount_updateBuffStackOp ev e g h1
        · exact hinv ent h g
      | removebuff =>
        simp only [hk] at hent
        rcases mem_replaceEntityFirst eid _ _ _ hent with h | h
        · subst h; exact openCount_removeBuffOp cfg.fightStart ev false e g h1
        · exact hinv ent h g
      | removedebuff =>
        simp only [hk] at hent
        rcases mem_replaceEntityFirst eid _ _ _ hent with h | h
        · subst h; exact openCount_removeBuffOp cfg.fightStart ev true e g h1
        · exact hinv ent h g

/-- Claim C4 witness: applying a buff to an entity with no open buff of
that ability keeps the invariant. -/
theorem c4_one_open_guarded_witness :
    OpenInvariant (processEvent c4CexCfg c4CexS0 c4CexEv1).1 :=
  c4_one_open_guarded c4CexCfg c4CexS0 c4CexEv1
    (by intro ent hent g; fin_cases hent; simp [openCount])
    (by intro _ ent hent _; fin_cases hent; simp [openCount])

/-- Claim C5: a `removebuff` event whose entity resolves but for which no
open buff of the ability exists synthesizes a buff starting at
`fight.start_time` with `stackHistory` opening at `(stacks = 1)` there,
closes it at the event timestamp, and a subsequent `getStatusUptime` query
for that status reports the full `[encounterStart, removalTimestamp]`
duration. -/
theorem c5_remove_synthesizes (cfg : TConfig) (ev : BEv)
    (eid g srcId curTs : Int) (bs0 : List Buff)
    (hres : resolveEntity cfg ev = some eid) (hk : ev.kind = .removebuff)
    (hg : ev.abilityGuid = g) (hsrc : ev.sourceID = some srcId)
    (hng : ∀ b ∈ bs0, b.abilityGuid ≠ g) (hfs : 0 ≤ cfg.fightStart)
    (hT : cfg.fightStart < ev.timestamp) :
    (processEvent cfg ⟨[⟨eid, bs0, []⟩]⟩ ev).1 =
      ⟨[⟨eid, bs0 ++ [⟨g, some srcId, cfg.fightStart, some ev.timestamp,
        none, [(1, cfg.fightStart), (0, ev.timestamp)], false⟩], []⟩]⟩ ∧
    getStatusUptime (processEvent cfg ⟨[⟨eid, bs0, []⟩]⟩ ev).1 g srcId
      curTs = ev.timestamp - cfg.fightStart := by
  have hopen : List.find? (fun b => b.abilityGuid == g && b.endTime == none)
      bs0 = none :=
    List.find?_eq_none.mpr (fun b hb => by simp [hng b hb])
  have hstate : (processEvent cfg ⟨[⟨eid, bs0, []⟩]⟩ ev).1 =
      ⟨[⟨eid, bs0 ++ [⟨g, some srcId, cfg.fightStart, some ev.timestamp,
        none, [(1, cfg.fightStart), (0, ev.timestamp)], false⟩], []⟩]⟩ := by
    simp [processEvent, hres, hk, removeBuffOp, findOpen, hg, hsrc, hopen,
      replaceEntityFirst]
  refine ⟨hstate, ?_⟩
  rw [hstate]
  simp only [getStatusUptime, getStatusUptimeM, statePass, entityPass,
    List.filter]
  rw [processBuffs_unmatched [] g srcId curTs bs0 _
    (fun b hb => by simp [keepBuff, hng b hb])]
  simp only [processBuffs, keepBuff, subtractBuff, subtractLoop, buffEvents,
    jsOrElse, beq_self_eq_true, Bool.true_and, Bool.or_true, decide_True,
    if_true, List.append_nil, List.nil_append, List.cons_append]
  rw [if_neg (by omega : ¬ ev.timestamp = 0)]
  simp only [sortEvents, List.foldl, insertEv]
  rw [if_pos (by omega : cfg.fightStart ≤ ev.timestamp)]
  simp [sweep, sweepGo, jsEnd]

/-- Claim C5 witness: removal of the never-applied ability 1 at `t = 500`
with `fight.start_time = 100` yields the synthesized closed buff and an
uptime of 400. -/
theorem c5_remove_synthesizes_witness :
    (processEvent c5WCfg ⟨[⟨0, [], []⟩]⟩ c5WEv).1 =
      ⟨[⟨0, [] ++ [⟨1, some 7, c5WCfg.fightStart, some 500, none,
        [(1, c5WCfg.fightStart), (0, 500)], false⟩], []⟩]⟩ ∧
    getStatusUptime (processEvent c5WCfg ⟨[⟨0, [], []⟩]⟩ c5WEv).1 1 7 600 =
      500 - c5WCfg.fightStart :=
  c5_remove_synthesizes c5WCfg c5WEv 0 1 7 600 [] rfl rfl rfl rfl
    (by simp) (by decide) (by decide)

/-- Claim C6: a stack-update event whose entity resolves but for which no
open buff of the ability exists is dropped: the tracker state is unchanged
and no synthetic stack-change event is fabricated. -/
theorem c6_stack_update_dropped (cfg : TConfig) (s : EState) (ev : BEv)
    (eid : Int) (hres : resolveEntity cfg ev = some eid)
    (hk : ev.kind = .applybuffstack ∨ ev.kind = .applydebuffstack ∨
      ev.kind = .removebuffstack ∨ ev.kind = .removedebuffstack)
    (hno : ∀ ent ∈ s.entities, ent.id = eid →
      findOpen ev.abilityGuid ent.buffs = none) :
    processEvent cfg s ev = (s, []) := by
  cases hf : s.entities.find? (fun e => e.id == eid) with
  | none => simp [processEvent, hres, hf]
  | some e =>
    have hmem := List.mem_of_find?_eq_some hf
    have hid : e.id = eid := by simpa using List.find?_some hf
    have hopen := hno e hmem hid
    have hre := replaceEntityFirst_self eid e s.entities hf
    rcases hk with hk | hk | hk | hk <;>
      simp [processEvent, hres, hf, hk, updateBuffStackOp, hopen, hre]

/-- Claim C6 witness: a `removebuffstack` for ability 1 against an entity
holding only a closed buff of ability 2 leaves the state untouched and
fabricates nothing. -/
theorem c6_stack_update_dropped_witness :
    processEvent c6WCfg c6WS c6WEv = (c6WS, []) :=
  c6_stack_update_dropped c6WCfg c6WS c6WEv 0 rfl
    (Or.inr (Or.inr (Or.inl rfl))) (by decide)

/-- Claim C7: a Requiescat cast opens a window (`start` set to the cast
timestamp) exactly when `(mp + 141) / maxMP ≥ 0.8` holds of the resource
snapshot; when the gate fails, `missedRequiescatBuffs` increments by one
and no new window opens (`start` is unchanged). -/
theorem c7_requiescat_gate (ids : ReqIds) (mp maxMP : Int) (ev : CastEv)
    (m : ReqModule) (hmax : 0 < maxMP) (hna : ids.requiescat ≠ ids.attack)
    (hnh : ids.requiescat ≠ ids.holySpirit)
    (hact : ev.actionId = ids.requiescat) :
    ((4 / 5 : ℚ) ≤ ((mp : ℚ) + 141) / (maxMP : ℚ) →
      (onCast ids mp maxMP ev m).requiescatState.start = some ev.timestamp ∧
      (onCast ids mp maxMP ev m).requiescatErrorResult.missedRequiescatBuffs
        = m.requiescatErrorResult.missedRequiescatBuffs) ∧
    (¬ (4 / 5 : ℚ) ≤ ((mp : ℚ) + 141) / (maxMP : ℚ) →
      (onCast ids mp maxMP ev m).requiescatState.start =
        m.requiescatState.start ∧
      (onCast ids mp maxMP ev m).requiescatErrorResult.missedRequiescatBuffs
        = m.requiescatErrorResult.missedRequiescatBuffs + 1) := by
  have hbne : (ev.actionId == ids.attack) = false := by simp [hact, hna]
  have hbeq : (ev.actionId == ids.requiescat) = true := by simp [hact]
  have hbnh : (ev.actionId == ids.holySpirit) = false := by simp [hact, hnh]
  constructor
  · intro hq
    have hg : mpGate mp maxMP = true := (mpGate_iff mp maxMP hmax).mpr hq
    cases hst : m.requiescatState.start with
    | none => simp [onCast, hbne, hbeq, hbnh, hg, hst]
    | some t => simp [onCast, hbne, hbeq, hbnh, hg, hst]
  · intro hq
    have hg : mpGate mp maxMP = false := by
      rcases Bool.eq_false_or_eq_true (mpGate mp maxMP) with h | h
      · exact absurd ((mpGate_iff mp maxMP hmax).mp h) hq
      · exact h
    cases hst : m.requiescatState.start with
    | none => simp [onCast, hbne, hbeq, hbnh, hg, hst]
    | some t => simp [onCast, hbne, hbeq, hbnh, hg, hst]

/-- Claim C7 witness: with `maxMP = 10000`, a Requiescat cast at 8500 MP
(85%) opens a window at the cast timestamp, and one at 7000 MP (70%) bumps
the precondition-violation tally to 1. -/
theorem c7_requiescat_gate_witness :
    (onCast c7Ids 8500 10000 ⟨42, 100⟩ c7M).requiescatState.start =
      some 42 ∧
    (onCast c7Ids 7000 10000
      ⟨42, 100⟩ c7M).requiescatErrorResult.missedRequiescatBuffs = 1 := by
  constructor
  · exact ((c7_requiescat_gate c7Ids 8500 10000 ⟨42, 100⟩ c7M (by norm_num)
      (by decide) (by decide) rfl).1 (by norm_num)).1
  · have h := ((c7_requiescat_gate c7Ids 7000 10000 ⟨42, 100⟩ c7M
      (by norm_num) (by decide) (by decide) rfl).2 (by norm_num)).2
    simpa using h

/-- Claim C8: closing an open window adds exactly the zero-clamped
shortfall `max 0 (5 - holySpirits)` to the cumulative tally, which
therefore never decreases: 3 qualifying casts add 2, and 5 or more add
0. -/
theorem c8_shortfall_clamped (m : ReqModule) (w : Int)
    (hw : m.requiescatState.start = some w) :
    (onRemoveRequiescat m).requiescatErrorResult.missedHolySpirits =
      m.requiescatErrorResult.missedHolySpirits +
        max 0 (5 - m.requiescatState.holySpirits) ∧
    m.requiescatErrorResult.missedHolySpirits ≤
      (onRemoveRequiescat m).requiescatErrorResult.missedHolySpirits := by
  constructor
  · rfl
  · simp only [onRemoveRequiescat]
    have : (0 : Int) ≤ max 0 (HOLY_SPIRIT_EXPECTED -
      m.requiescatState.holySpirits) := le_max_left 0 _
    omega

/-- Claim C8 witness: a window with 3 Holy Spirit casts adds
`max 0 (5 - 3) = 2` on close. -/
theorem c8_shortfall_clamped_witness :
    (onRemoveRequiescat c8M).requiescatErrorResult.missedHolySpirits = 2 := by
  have h := (c8_shortfall_clamped c8M 0 rfl).1
  rw [h]; decide

/-- Claim C9, counterexample: `getStatusUptime` is not read-only.  The
query on a state holding the buff `[0,10]` and the invulnerability interval
`[5,15]` chops the stored buff object's end down to 5 (the range list
aliases the buff), so the accumulated state differs after the call. -/
theorem c9_mutates_cex :
    (getStatusUptimeM c9CexState 1 999 100).2 ≠ c9CexState := by decide

/-- Claim C9 (amended): `getStatusUptime` leaves the accumulated state
unchanged — and repeated calls with the same arguments return identical
results — provided no `invulnerable` interval overlaps any matching buff
(the code's own discard test `invuln.end < buff.start || invuln.start >
buff.end`); an overlapping invuln instead mutates the stored buff via the
aliased range list. -/
theorem c9_readonly_no_overlap (s : EState) (g srcId curTs : Int)
    (h : ∀ ent ∈ s.entities, ∀ b ∈ ent.buffs, keepBuff g srcId b = true →
      ∀ iv ∈ ent.invulns, iv.type_ = "invulnerable" →
        iv.endTime < b.start ∨ iv.start > jsEnd b.endTime) :
    (getStatusUptimeM s g srcId curTs).2 = s ∧
    getStatusUptimeM ((getStatusUptimeM s g srcId curTs).2) g srcId curTs =
      getStatusUptimeM s g srcId curTs := by
  have h1 : (getStatusUptimeM s g srcId curTs).2 = s := by
    simp [getStatusUptimeM, statePass_readonly g srcId curTs s.entities h]
  exact ⟨h1, by rw [h1]⟩

/-- Claim C9 witness: with the invuln `[20,30]` entirely after the buff
`[0,10]`, the query mutates nothing and a second call agrees. -/
theorem c9_readonly_no_overlap_witness :
    (getStatusUptimeM c9WState 1 999 100).2 = c9WState ∧
    getStatusUptimeM ((getStatusUptimeM c9WState 1 999 100).2) 1 999 100 =
      getStatusUptimeM c9WState 1 999 100 :=
  c9_readonly_no_overlap c9WState 1 999 100 (by decide)

/-- Claim C10: a removal of the opener status arriving with no window open
(state Idle, qualifying count 0) still adds the full expected count 5 to
the missed-qualifying-action tally — `onRemoveRequiescat` never checks
whether a window was being tracked. -/
theorem c10_idle_removal_tally (m : ReqModule)
    (h1 : m.requiescatState.start = none)
    (h2 : m.requiescatState.holySpirits = 0) :
    (onRemoveRequiescat m).requiescatErrorResult.missedHolySpirits =
      m.requiescatErrorResult.missedHolySpirits + 5 := by
  simp [onRemoveRequiescat, HOLY_SPIRIT_EXPECTED, h2]

/-- Claim C10 witness: an idle-state removal pushes the tally from 7 to
12. -/
theorem c10_idle_removal_tally_witness :
    (onRemoveRequiescat c10M).requiescatErrorResult.missedHolySpirits =
      12 := by
  have h := c10_idle_removal_tally c10M rfl rfl
  rw [h]; decide

end XIV
